import Mathlib

/-!
Shallow embedding of the plugin registry / lifecycle engine of the OIB
repository (src/plugin_manager.py, src/plugin_base.py).

Python dictionaries are modelled as association lists with string keys
(config values abstracted as naturals; the registry never inspects them);
mutation of a Python dict in place becomes functional update of the list.
Plugin hooks (`on_load`, `on_enable`, `on_disable`, `on_unload`) are
modelled as functions from the current `is_enabled` flag to a `HookRes`,
which records whether the hook returned normally (with its Boolean
result) or raised, and the value of `is_enabled` afterwards — a hook
mutates only its own instance, whose lifecycle-relevant state is
`is_enabled`.  The filesystem is modelled by an environment mapping each
plugin name to what `load_plugin` would find on disk; wall-clock times
seen by the debouncing file handler are rationals.
-/

/-! ### Association lists standing for Python dicts -/
/-- Dictionary lookup: first binding of the key wins (Python dicts have
unique keys; our invariants keep keys nodup). -/
def alookup {α : Type} : List (String × α) → String → Option α
  | [], _ => none
  | (k₁, v₁) :: rest, k => if k₁ = k then some v₁ else alookup rest k

/-- `d[k] = v` of Python: an existing binding is overwritten in place, a
fresh key is appended (Python dict insertion order). -/
def aset {α : Type} : List (String × α) → String → α → List (String × α)
  | [], k, v => [(k, v)]
  | (k₁, v₁) :: rest, k, v =>
      if k₁ = k then (k, v) :: rest else (k₁, v₁) :: aset rest k v

/-- `del d[k]` of Python: the (unique) binding of `k` is removed. -/
def aremove {α : Type} : List (String × α) → String → List (String × α)
  | [], _ => []
  | (k₁, v₁) :: rest, k => if k₁ = k then rest else (k₁, v₁) :: aremove rest k

/-- Removing the first occurrence of a string from a list of keys. -/
def serase : List String → String → List String
  | [], _ => []
  | k₁ :: rest, k => if k₁ = k then rest else k₁ :: serase rest k

/-- `s.endswith(suffix)` of Python, on the character lists of the
strings. -/
def strEndsWith (s sfx : String) : Bool := sfx.data.isSuffixOf s.data

/-- `s.startswith(pre)` of Python, on the character lists of the
strings. -/
def strStartsWith (s pre : String) : Bool := pre.data.isPrefixOf s.data

/-- A Python dict with string keys and opaque (numeric) values. -/
abbrev ConfigMap := List (String × Nat)

/-- `d.update(patch)` of Python: every binding of `patch` is written into
`d`, left to right. -/
def dictUpdate (m patch : ConfigMap) : ConfigMap :=
  patch.foldl (fun acc p => aset acc p.1 p.2) m

/-! ### Plugin hooks and instances (src/plugin_base.py) -/

/-- Result of awaiting a plugin hook: either a normal return carrying the
hook's Boolean result, or a raised exception; in both cases the value of
the instance's `is_enabled` flag after the call is recorded (a hook may
mutate `self.is_enabled` before returning or raising). -/
inductive HookRes where
  | ok (ret : Bool) (enabledAfter : Bool)
  | exn (enabledAfter : Bool)
deriving DecidableEq, Repr

/-- Did the hook raise? -/
def HookRes.raised : HookRes → Bool
  | .ok _ _ => false
  | .exn _ => true

/-- The instance's `is_enabled` flag after the hook call. -/
def HookRes.after : HookRes → Bool
  | .ok _ e => e
  | .exn e => e

/-- A lifecycle hook, as a function of the current `is_enabled` flag. -/
abbrev Hook := Bool → HookRes

/-- The four lifecycle hooks a plugin class provides. -/
structure PluginBehavior where
  on_load : Hook
  on_enable : Hook
  on_disable : Hook
  on_unload : Hook

/-- `PluginBase.on_load` (plugin_base.py line 51): returns True, touches
nothing. -/
def base_on_load : Hook := fun e => .ok true e

/-- `PluginBase.on_enable` (line 55): sets `is_enabled = True`, returns
True. -/
def base_on_enable : Hook := fun _ => .ok true true

/-- `PluginBase.on_disable` (line 60): sets `is_enabled = False`, returns
True. -/
def base_on_disable : Hook := fun _ => .ok true false

/-- `PluginBase.on_unload` (line 65): returns True, touches nothing. -/
def base_on_unload : Hook := fun e => .ok true e

/-- The default hook suite inherited from `PluginBase`. -/
def baseBehavior : PluginBehavior :=
  ⟨base_on_load, base_on_enable, base_on_disable, base_on_unload⟩

/-- A live plugin instance as the registry sees it: its class's hook
suite plus the `PluginBase.__init__` state (`metadata`, `config`,
`is_enabled`). -/
structure PluginInstance where
  behavior : PluginBehavior
  metadata : ConfigMap
  config : ConfigMap
  is_enabled : Bool

/-! ### The on-disk world visible to `load_plugin` -/

/-- Parsed `config.json` of a plugin: the raw dict (stored as the
instance's `metadata`) together with its `config` sub-dict
(`metadata.get("config", {})`). -/
structure PluginMeta where
  dict : ConfigMap
  config : ConfigMap

/-- What executing the plugin's main module yields: the module raises on
exec (or its spec cannot be built), it contains no proper `PluginBase`
subclass, or a class is found — with its identity, its hook suite once
instantiated, and whether its constructor raises. -/
inductive LoadOutcome where
  | execRaises
  | noClass
  | found (classId : Nat) (behavior : PluginBehavior) (ctorRaises : Bool)

/-- Everything `load_plugin` can observe on disk about one plugin name:
the parsed metadata (`none` when `config.json` is missing or unreadable),
whether the entry-point file named by `metadata.get("main", "main.py")`
exists, and the outcome of executing it. -/
structure DiskPlugin where
  metadata : Option PluginMeta
  mainExists : Bool
  outcome : LoadOutcome

/-- The filesystem, per plugin name. -/
abbrev Disk := String → DiskPlugin

/-! ### The plugin manager (src/plugin_manager.py) -/

/-- `PluginManager` mutable state: `self.plugins` and
`self.plugin_classes` (classes identified by their `classId`). -/
structure ManagerState where
  plugins : List (String × PluginInstance)
  plugin_classes : List (String × Nat)

/-- The state right after `PluginManager.__init__`: both dicts empty. -/
def initState : ManagerState := ⟨[], []⟩

/-- `PluginManager.load_plugin` (lines 117-177).  Fails (returning False
with the state untouched) when the name is already loaded, the metadata
cannot be read, the main file is absent, module exec raises, no plugin
class is found, the constructor raises, or `on_load` raises.  The Boolean
returned by `on_load` is ignored: only a raised exception reaches the
`except` clause.  On success the instance and its class are stored. -/
def load_plugin (env : Disk) (st : ManagerState) (name : String) :
    Bool × ManagerState :=
  match alookup st.plugins name with
  | some _ => (false, st)
  | none =>
    match (env name).metadata with
    | none => (false, st)
    | some meta =>
      if (env name).mainExists = false then (false, st)
      else
        match (env name).outcome with
        | .execRaises => (false, st)
        | .noClass => (false, st)
        | .found classId behavior ctorRaises =>
          if ctorRaises then (false, st)
          else
            match behavior.on_load false with
            | .exn _ => (false, st)
            | .ok _ e =>
                (true,
                 ⟨st.plugins ++ [(name, ⟨behavior, meta.dict, meta.config, e⟩)],
                  st.plugin_classes ++ [(name, classId)]⟩)

/-- `PluginManager.unload_plugin` (lines 179-198).  If the instance is
enabled, `on_disable` runs first; then `on_unload`; then both dict
entries are deleted.  A raised hook exception jumps to the `except`
clause: the function returns False and the deletions never run, though
any `is_enabled` mutation made by the hook persists in the stored
instance. -/
def unload_plugin (st : ManagerState) (name : String) :
    Bool × ManagerState :=
  match alookup st.plugins name with
  | none => (false, st)
  | some p =>
    if p.is_enabled then
      match p.behavior.on_disable p.is_enabled with
      | .exn e =>
          (false, { st with plugins := aset st.plugins name { p with is_enabled := e } })
      | .ok _ e =>
          match p.behavior.on_unload e with
          | .exn e₂ =>
              (false, { st with plugins := aset st.plugins name { p with is_enabled := e₂ } })
          | .ok _ _ =>
              (true, ⟨aremove st.plugins name, aremove st.plugin_classes name⟩)
    else
      match p.behavior.on_unload p.is_enabled with
      | .exn e₂ =>
          (false, { st with plugins := aset st.plugins name { p with is_enabled := e₂ } })
      | .ok _ _ =>
          (true, ⟨aremove st.plugins name, aremove st.plugin_classes name⟩)

/-- `PluginManager.enable_plugin` (lines 200-218).  Fails on a missing or
already-enabled plugin.  Otherwise `on_enable` is awaited; the manager
returns True whenever the hook does not raise, ignoring the hook's
Boolean result, and never writes `is_enabled` itself — only the hook
does.  A raised exception yields False, with the hook's partial mutation
kept. -/
def enable_plugin (st : ManagerState) (name : String) :
    Bool × ManagerState :=
  match alookup st.plugins name with
  | none => (false, st)
  | some p =>
    if p.is_enabled then (false, st)
    else
      match p.behavior.on_enable p.is_enabled with
      | .exn e =>
          (false, { st with plugins := aset st.plugins name { p with is_enabled := e } })
      | .ok _ e =>
          (true, { st with plugins := aset st.plugins name { p with is_enabled := e } })

/-- `PluginManager.disable_plugin` (lines 220-238), symmetric to
`enable_plugin`. -/
def disable_plugin (st : ManagerState) (name : String) :
    Bool × ManagerState :=
  match alookup st.plugins name with
  | none => (false, st)
  | some p =>
    if p.is_enabled = false then (false, st)
    else
      match p.behavior.on_disable p.is_enabled with
      | .exn e =>
          (false, { st with plugins := aset st.plugins name { p with is_enabled := e } })
      | .ok _ e =>
          (true, { st with plugins := aset st.plugins name { p with is_enabled := e } })

/-- `PluginManager.reload_plugin` (lines 94-115): when a record exists,
remember `is_enabled`, unload (result ignored), load, and if the load
succeeded and the plugin was enabled, enable; the load result is
returned.  With no record it returns False. -/
def reload_plugin (env : Disk) (st : ManagerState) (name : String) :
    Bool × ManagerState :=
  match alookup st.plugins name with
  | none => (false, st)
  | some p =>
    let was_enabled := p.is_enabled
    let st₁ := (unload_plugin st name).2
    let res := load_plugin env st₁ name
    let st₂ := if res.1 && was_enabled then (enable_plugin res.2 name).2 else res.2
    (res.1, st₂)

/-- The dictionary `PluginManager.get_plugin_status` returns
(lines 240-256): the not-loaded branch re-reads the on-disk metadata and
carries no config key (modelled as `config = none`). -/
structure PluginStatus where
  status : String
  enabled : Bool
  metadata : Option ConfigMap
  config : Option ConfigMap

/-- `PluginManager.get_plugin_status` (lines 240-256). -/
def get_plugin_status (env : Disk) (st : ManagerState) (name : String) :
    PluginStatus :=
  match alookup st.plugins name with
  | none =>
      ⟨"not_loaded", false, ((env name).metadata).map PluginMeta.dict, none⟩
  | some p =>
      ⟨"loaded", p.is_enabled, some p.metadata, some p.config⟩

/-- `PluginManager.update_plugin_config` (lines 258-270): on a loaded
plugin, `PluginBase.update_config` (plugin_base.py line 171) does
`self.config.update(config)`; otherwise False and nothing changes. -/
def update_plugin_config (st : ManagerState) (name : String)
    (patch : ConfigMap) : Bool × ManagerState :=
  match alookup st.plugins name with
  | none => (false, st)
  | some p =>
      let p₁ := { p with config := dictUpdate p.config patch }
      (true, { st with plugins := aset st.plugins name p₁ })

/-- One directory entry of `os.listdir(self.plugin_dir)` as
`discover_plugins` inspects it: its name, whether it is a directory, and
whether `<entry>/config.json` exists. -/
structure DirEntry where
  name : String
  isDir : Bool
  hasConfig : Bool
deriving DecidableEq, Repr

/-- `PluginManager.discover_plugins` (lines 66-78): a listing failure
(`none`) is caught and yields the empty list; otherwise every directory
entry whose name does not start with the reserved prefix and that
contains a `config.json` is appended in listing order. -/
def discover_plugins : Option (List DirEntry) → List String
  | none => []
  | some items =>
      items.foldl
        (fun acc it =>
          if it.isDir && !(strStartsWith it.name "__") && it.hasConfig then
            acc ++ [it.name]
          else acc)
        []

/-! ### File-change watchers -/

/-- A filesystem modification event: whether it concerns a directory,
the path segments of the containing directory, and the file name. -/
structure FsEvent where
  is_directory : Bool
  dir : List String
  filename : String

/-- What a watcher callback schedules in reaction to an event. -/
inductive WatchAction where
  | skip
  | reloadPlugin (name : String)
  | configHook (name : String)
  | infoHook (name : String)
deriving DecidableEq, Repr

/-- `ConfigFileHandler.__init__` state: `self.last_reload`, mapping a
plugin name to the wall-clock time of its last accepted event. -/
structure HandlerState where
  last_reload : List (String × ℚ)

/-- `ConfigFileHandler.on_modified` (plugin_manager.py lines 22-37): on a
non-directory event whose path ends in `config.json` (the suffix holds
no path separator, so it is a suffix of the final path segment), the
plugin name is the basename of the containing directory; an event within
1 second of the last accepted one for that plugin is dropped; otherwise
the time is recorded and a full `reload_plugin` is scheduled. -/
def ConfigFileHandler_on_modified (hs : HandlerState) (e : FsEvent)
    (now : ℚ) : WatchAction × HandlerState :=
  if e.is_directory then (.skip, hs)
  else if strEndsWith e.filename "config.json" then
    let plugin_name := (e.dir.getLast?).getD ""
    match alookup hs.last_reload plugin_name with
    | some prev =>
        if now - prev < 1 then (.skip, hs)
        else (.reloadPlugin plugin_name, ⟨aset hs.last_reload plugin_name now⟩)
    | none => (.reloadPlugin plugin_name, ⟨aset hs.last_reload plugin_name now⟩)
  else (.skip, hs)

/-- `PluginFileHandler.IGNORE_DIRS` (plugin_base.py line 16). -/
def IGNORE_DIRS : List String := ["assets", "temp", "static", "__pycache__"]

/-- `PluginFileHandler.should_ignore` (lines 21-23): any path segment
that names a reserved directory makes the event ignored. -/
def should_ignore (pathParts : List String) : Bool :=
  IGNORE_DIRS.any (fun d => pathParts.any (fun seg => seg = d))

/-- `PluginFileHandler.on_modified` (plugin_base.py lines 25-31): on a
file-modified event not under an ignored directory, `config.json`
schedules the owning plugin's `on_config_changed` hook and `plugin.json`
its `on_plugin_info_changed` hook; anything else is ignored. -/
def PluginFileHandler_on_modified (isFileModified : Bool) (e : FsEvent)
    (plugin_name : String) : WatchAction :=
  if isFileModified && !(should_ignore (e.dir ++ [e.filename])) then
    if e.filename = "config.json" then .configHook plugin_name
    else if e.filename = "plugin.json" then .infoHook plugin_name
    else .skip
  else .skip

/-! ### Sequences of registry operations -/

/-- One public lifecycle operation of the registry. -/
inductive Op where
  | load (name : String)
  | unload (name : String)
  | enable (name : String)
  | disable (name : String)
  | reload (name : String)
  | updateConfig (name : String) (patch : ConfigMap)

/-- The state reached by running one operation. -/
def applyOp (env : Disk) (st : ManagerState) : Op → ManagerState
  | .load n => (load_plugin env st n).2
  | .unload n => (unload_plugin st n).2
  | .enable n => (enable_plugin st n).2
  | .disable n => (disable_plugin st n).2
  | .reload n => (reload_plugin env st n).2
  | .updateConfig n patch => (update_plugin_config st n patch).2

/-- The state reached from a fresh manager by a sequence of operations. -/
def applyOps (env : Disk) (ops : List Op) : ManagerState :=
  ops.foldl (applyOp env) initState

/-- The registry invariant: the `plugins` dict has no duplicate keys and
the `plugin_classes` dict has exactly the same keys in the same order. -/
def keysOk (st : ManagerState) : Prop :=
  (st.plugins.map Prod.fst).Nodup ∧
  st.plugins.map Prod.fst = st.plugin_classes.map Prod.fst

/-- The teardown path of `unload_plugin` raises somewhere: `on_disable`
(run only when the instance is enabled) or the subsequent `on_unload`. -/
def unload_teardown_raises (p : PluginInstance) : Bool :=
  if p.is_enabled then
    match p.behavior.on_disable p.is_enabled with
    | .exn _ => true
    | .ok _ e => (p.behavior.on_unload e).raised
  else (p.behavior.on_unload p.is_enabled).raised

/-- Whether a `load_plugin` call on a not-yet-loaded name would succeed:
metadata readable, main file present, a unique class found, constructor
and `on_load` do not raise. -/
def fresh_load_ok (env : Disk) (name : String) : Bool :=
  match (env name).metadata with
  | none => false
  | some _ =>
    (env name).mainExists &&
    (match (env name).outcome with
     | .found _ beh ctorRaises => !ctorRaises && !(beh.on_load false).raised
     | _ => false)

/-- Metadata of the example plugin used in the concrete scenarios. -/
def metaEcho : PluginMeta := ⟨[("name", 1)], [("a", 2)]⟩

/-- A disk whose every plugin directory holds a well-behaved default
plugin. -/
def envBase : Disk := fun _ => ⟨some metaEcho, true, .found 0 baseBehavior false⟩

/-- A plugin class whose `on_load` returns False without raising. -/
def behLoadFalse : PluginBehavior :=
  { baseBehavior with on_load := fun e => .ok false e }

/-- A disk whose every plugin directory holds such a class. -/
def envLoadFalse : Disk :=
  fun _ => ⟨some metaEcho, true, .found 0 behLoadFalse false⟩

/-- A plugin class whose `on_load` raises. -/
def behLoadRaises : PluginBehavior :=
  { baseBehavior with on_load := fun e => .exn e }

/-- A disk whose every plugin directory holds such a class. -/
def envLoadRaises : Disk :=
  fun _ => ⟨some metaEcho, true, .found 0 behLoadRaises false⟩

/-- A plugin class whose `on_unload` raises. -/
def behUnloadRaises : PluginBehavior :=
  { baseBehavior with on_unload := fun e => .exn e }

/-- A loaded, not enabled instance of that class. -/
def pUnloadRaises : PluginInstance := ⟨behUnloadRaises, [], [], false⟩

/-- A manager holding only that instance. -/
def stUnloadRaises : ManagerState :=
  ⟨[("echo", pUnloadRaises)], [("echo", 0)]⟩

/-- A plugin class whose `on_enable` returns False and leaves
`is_enabled` untouched. -/
def behEnableFalse : PluginBehavior :=
  { baseBehavior with on_enable := fun e => .ok false e }

/-- A loaded, not enabled instance of that class. -/
def pEnableFalse : PluginInstance := ⟨behEnableFalse, [], [], false⟩

/-- A manager holding only that instance. -/
def stEnableFalse : ManagerState :=
  ⟨[("echo", pEnableFalse)], [("echo", 0)]⟩

/-- A plugin class whose `on_disable` raises. -/
def behDisableRaises : PluginBehavior :=
  { baseBehavior with on_disable := fun e => .exn e }

/-- A loaded and enabled instance of that class. -/
def pDisableRaises : PluginInstance := ⟨behDisableRaises, [], [], true⟩

/-- A manager holding only that instance. -/
def stDisableRaises : ManagerState :=
  ⟨[("echo", pDisableRaises)], [("echo", 0)]⟩

/-- A loaded, not enabled instance of the default class. -/
def pBase : PluginInstance := ⟨baseBehavior, [], [], false⟩

/-- A manager holding only that instance. -/
def stBase : ManagerState := ⟨[("echo", pBase)], [("echo", 0)]⟩

/-- A loaded and enabled instance of the default class. -/
def pEnabledBase : PluginInstance := ⟨baseBehavior, [], [], true⟩

/-- A manager holding only that instance. -/
def stEnabledBase : ManagerState := ⟨[("echo", pEnabledBase)], [("echo", 0)]⟩

/-- A disk from which no plugin can be loaded: `config.json` unreadable
everywhere. -/
def envNoMeta : Disk := fun _ => ⟨none, false, .execRaises⟩

theorem alookup_eq_none_of_not_mem {α : Type} (m : List (String × α))
    (key : String) (h : key ∉ m.map Prod.fst) : alookup m key = none := by
  induction m with
  | nil => rfl
  | cons hd tl ih =>
      obtain ⟨k, v⟩ := hd
      simp only [List.map_cons, List.mem_cons] at h
      push_neg at h
      have hkn : ¬ (k = key) := fun he => h.1 he.symm
      simp only [alookup, if_neg hkn]
      exact ih h.2

theorem mem_of_alookup_eq_some {α : Type} {m : List (String × α)}
    {key : String} {v : α} (h : alookup m key = some v) :
    key ∈ m.map Prod.fst := by
  induction m with
  | nil => simp [alookup] at h
  | cons hd tl ih =>
      obtain ⟨k, v₁⟩ := hd
      by_cases hk : k = key
      · simp [hk]
      · simp only [alookup, if_neg hk] at h
        simp only [List.map_cons, List.mem_cons]
        exact Or.inr (ih h)

theorem alookup_isSome_iff_mem {α : Type} (m : List (String × α))
    (key : String) : (alookup m key).isSome = true ↔ key ∈ m.map Prod.fst := by
  constructor
  · intro h
    obtain ⟨v, hv⟩ := Option.isSome_iff_exists.mp h
    exact mem_of_alookup_eq_some hv
  · intro h
    cases hm : alookup m key with
    | some v => rfl
    | none =>
        induction m with
        | nil => simp at h
        | cons hd tl ih =>
            obtain ⟨k, v⟩ := hd
            by_cases hk : k = key
            · simp [alookup, hk] at hm
            · simp only [alookup, if_neg hk] at hm
              simp only [List.map_cons, List.mem_cons] at h
              rcases h with h | h
              · exact absurd h.symm hk
              · exact ih h hm

theorem alookup_aset_self {α : Type} (m : List (String × α)) (k : String)
    (v : α) : alookup (aset m k v) k = some v := by
  induction m with
  | nil => simp [aset, alookup]
  | cons hd tl ih =>
      obtain ⟨k₁, v₁⟩ := hd
      by_cases hk : k₁ = k
      · simp [aset, hk, alookup]
      · simp only [aset, if_neg hk, alookup, if_neg hk]
        exact ih

theorem alookup_aset_other {α : Type} (m : List (String × α)) (k key : String)
    (v : α) (hne : key ≠ k) : alookup (aset m k v) key = alookup m key := by
  have hkn : ¬ (k = key) := fun he => hne he.symm
  induction m with
  | nil => simp [aset, alookup, hkn]
  | cons hd tl ih =>
      obtain ⟨k₁, v₁⟩ := hd
      by_cases hk : k₁ = k
      · subst hk
        simp only [aset, if_pos rfl, alookup, if_neg hkn]
      · simp only [aset, if_neg hk, alookup]
        by_cases hkey : k₁ = key
        · simp [hkey]
        · simp only [if_neg hkey]
          exact ih

/-- Writing back a value at a key that is present does not change the
key list. -/
theorem map_fst_aset_of_mem {α : Type} (m : List (String × α)) (k : String)
    (v : α) (h : k ∈ m.map Prod.fst) :
    (aset m k v).map Prod.fst = m.map Prod.fst := by
  induction m with
  | nil => simp at h
  | cons hd tl ih =>
      obtain ⟨k₁, v₁⟩ := hd
      by_cases hk : k₁ = k
      · simp [aset, hk]
      · simp only [List.map_cons, List.mem_cons] at h
        rcases h with h | h
        · exact absurd h.symm hk
        · simp only [aset, if_neg hk, List.map_cons, ih h]

theorem map_fst_aset_not_mem {α : Type} (m : List (String × α)) (k : String)
    (v : α) (h : k ∉ m.map Prod.fst) :
    (aset m k v).map Prod.fst = m.map Prod.fst ++ [k] := by
  induction m with
  | nil => simp [aset]
  | cons hd tl ih =>
      obtain ⟨k₁, v₁⟩ := hd
      simp only [List.map_cons, List.mem_cons] at h
      push_neg at h
      have hk : ¬ (k₁ = k) := fun he => h.1 he.symm
      simp only [aset, if_neg hk, List.map_cons, ih h.2, List.cons_append]

theorem map_fst_aremove {α : Type} (m : List (String × α)) (k : String) :
    (aremove m k).map Prod.fst = serase (m.map Prod.fst) k := by
  induction m with
  | nil => rfl
  | cons hd tl ih =>
      obtain ⟨k₁, v₁⟩ := hd
      by_cases hk : k₁ = k
      · simp [aremove, hk, serase]
      · simp [aremove, hk, serase, ih]

theorem serase_sublist (l : List String) (k : String) :
    (serase l k).Sublist l := by
  induction l with
  | nil => simp [serase]
  | cons hd tl ih =>
      by_cases hk : hd = k
      · simp [serase, hk]
      · simp only [serase, if_neg hk]
        exact ih.cons₂ hd

/-- After `dictUpdate m patch`, a key bound in `patch` (with nodup keys)
has the patch value, any other key keeps its old value. -/
theorem alookup_dictUpdate (m patch : ConfigMap) (key : String)
    (hnd : (patch.map Prod.fst).Nodup) :
    alookup (dictUpdate m patch) key =
      (alookup patch key).elim (alookup m key) some := by
  induction patch generalizing m with
  | nil => simp [dictUpdate, alookup]
  | cons hd tl ih =>
      obtain ⟨k, v⟩ := hd
      simp only [List.map_cons, List.nodup_cons] at hnd
      have step : dictUpdate m ((k, v) :: tl) = dictUpdate (aset m k v) tl := rfl
      rw [step, ih (aset m k v) hnd.2]
      by_cases hkey : key = k
      · subst hkey
        have htl : alookup tl key = none :=
          alookup_eq_none_of_not_mem tl key hnd.1
        rw [htl]
        simp [alookup, alookup_aset_self]
      · rw [alookup_aset_other m k key v hkey]
        simp only [alookup, if_neg (fun h : k = key => hkey h.symm)]

/-! ### Key-set invariants of the two registry dicts -/

theorem alookup_append {α : Type} (l₁ l₂ : List (String × α)) (k : String) :
    alookup (l₁ ++ l₂) k = (alookup l₁ k).elim (alookup l₂ k) some := by
  induction l₁ with
  | nil => simp [alookup]
  | cons hd tl ih =>
      obtain ⟨k₁, v₁⟩ := hd
      by_cases hk : k₁ = k
      · simp [alookup, hk]
      · simp [alookup, hk, ih]

theorem alookup_aremove_self {α : Type} (m : List (String × α)) (k : String)
    (hnd : (m.map Prod.fst).Nodup) : alookup (aremove m k) k = none := by
  induction m with
  | nil => rfl
  | cons hd tl ih =>
      obtain ⟨k₁, v₁⟩ := hd
      simp only [List.map_cons, List.nodup_cons] at hnd
      by_cases hk : k₁ = k
      · subst hk
        simp only [aremove, if_pos rfl]
        exact alookup_eq_none_of_not_mem tl k₁ hnd.1
      · simp only [aremove, if_neg hk, alookup, if_neg hk]
        exact ih hnd.2

theorem alookup_aremove_other {α : Type} (m : List (String × α))
    (k key : String) (hne : key ≠ k) :
    alookup (aremove m k) key = alookup m key := by
  induction m with
  | nil => rfl
  | cons hd tl ih =>
      obtain ⟨k₁, v₁⟩ := hd
      by_cases hk : k₁ = k
      · subst hk
        have hkn : ¬ (k₁ = key) := fun h => hne h.symm
        simp [aremove, alookup, hkn]
      · simp only [aremove, if_neg hk, alookup]
        by_cases hkey : k₁ = key
        · simp [hkey]
        · simp only [if_neg hkey]
          exact ih

theorem keysOk_initState : keysOk initState := ⟨List.nodup_nil, rfl⟩

theorem not_mem_of_alookup_eq_none {α : Type} {m : List (String × α)}
    {k : String} (h : alookup m k = none) : k ∉ m.map Prod.fst := by
  intro hmem
  have := (alookup_isSome_iff_mem m k).mpr hmem
  rw [h] at this
  simp at this

/-- On success, `load_plugin` appends the new instance and its class to
the two dicts; this is the exact successful result. -/
theorem load_plugin_success_eq (env : Disk) (st : ManagerState) (n : String)
    (meta : PluginMeta) (cid : Nat) (beh : PluginBehavior) (r e : Bool)
    (hl : alookup st.plugins n = none)
    (hm : (env n).metadata = some meta)
    (hmain : (env n).mainExists = true)
    (ho : (env n).outcome = .found cid beh false)
    (hload : beh.on_load false = .ok r e) :
    load_plugin env st n =
      (true,
       ⟨st.plugins ++ [(n, ⟨beh, meta.dict, meta.config, e⟩)],
        st.plugin_classes ++ [(n, cid)]⟩) := by
  unfold load_plugin
  simp [hl, hm, ho, hmain, hload]

/-- Any failing precondition leaves `load_plugin` at `(false, st)`; the
successful branch is characterized separately. -/
theorem keysOk_load (env : Disk) (st : ManagerState) (n : String)
    (h : keysOk st) : keysOk (load_plugin env st n).2 := by
  unfold load_plugin
  cases hl : alookup st.plugins n with
  | some p => exact h
  | none =>
    cases hm : (env n).metadata with
    | none => exact h
    | some meta =>
      by_cases hmain : (env n).mainExists = false
      · simpa [hmain] using h
      · cases ho : (env n).outcome with
        | execRaises => simpa [hmain] using h
        | noClass => simpa [hmain] using h
        | found cid beh cr =>
          cases cr with
          | true => simpa [hmain] using h
          | false =>
            cases hload : beh.on_load false with
            | exn e => simpa [hmain, hload] using h
            | ok r e =>
              simp only [hmain, hload]
              have hnot : n ∉ st.plugins.map Prod.fst :=
                not_mem_of_alookup_eq_none hl
              simp only [Bool.false_eq_true, if_false, if_neg hmain]
              constructor
              · show (List.map Prod.fst
                    (st.plugins ++
                      [(n, (⟨beh, meta.dict, meta.config, e⟩ : PluginInstance))])).Nodup
                simp only [List.map_append, List.map_cons, List.map_nil,
                  List.nodup_append]
                refine ⟨h.1, List.nodup_singleton n, ?_⟩
                intro x hx hx2
                simp only [List.mem_singleton] at hx2
                exact hnot (hx2 ▸ hx)
              · show List.map Prod.fst
                    (st.plugins ++
                      [(n, (⟨beh, meta.dict, meta.config, e⟩ : PluginInstance))]) =
                  List.map Prod.fst (st.plugin_classes ++ [(n, cid)])
                simp only [List.map_append, List.map_cons, List.map_nil]
                rw [h.2]

theorem keysOk_unload (st : ManagerState) (n : String)
    (h : keysOk st) : keysOk (unload_plugin st n).2 := by
  unfold unload_plugin
  cases hl : alookup st.plugins n with
  | none => simpa using h
  | some p =>
    have hmem : n ∈ st.plugins.map Prod.fst := mem_of_alookup_eq_some hl
    have haset : ∀ q : PluginInstance,
        keysOk { st with plugins := aset st.plugins n q } := by
      intro q
      constructor
      · rw [map_fst_aset_of_mem st.plugins n q hmem]
        exact h.1
      · rw [map_fst_aset_of_mem st.plugins n q hmem]
        exact h.2
    have hrem : keysOk ⟨aremove st.plugins n, aremove st.plugin_classes n⟩ := by
      constructor
      · rw [map_fst_aremove]
        exact h.1.sublist (serase_sublist _ n)
      · rw [map_fst_aremove, map_fst_aremove, h.2]
    cases hen : p.is_enabled with
    | true =>
      cases hd : p.behavior.on_disable true with
      | exn e => simpa [hen, hd] using haset _
      | ok r e =>
        cases hu : p.behavior.on_unload e with
        | exn e₂ => simpa [hen, hd, hu] using haset _
        | ok r₂ e₂ => simpa [hen, hd, hu] using hrem
    | false =>
      cases hu : p.behavior.on_unload false with
      | exn e₂ => simpa [hen, hu] using haset _
      | ok r₂ e₂ => simpa [hen, hu] using hrem

theorem keysOk_enable (st : ManagerState) (n : String)
    (h : keysOk st) : keysOk (enable_plugin st n).2 := by
  unfold enable_plugin
  cases hl : alookup st.plugins n with
  | none => simpa using h
  | some p =>
    have hmem : n ∈ st.plugins.map Prod.fst := mem_of_alookup_eq_some hl
    have haset : ∀ q : PluginInstance,
        keysOk { st with plugins := aset st.plugins n q } := by
      intro q
      exact ⟨by rw [map_fst_aset_of_mem st.plugins n q hmem]; exact h.1,
             by rw [map_fst_aset_of_mem st.plugins n q hmem]; exact h.2⟩
    cases hen : p.is_enabled with
    | true => simpa [hen] using h
    | false =>
      cases he : p.behavior.on_enable false with
      | exn e => simpa [hen, he] using haset _
      | ok r e => simpa [hen, he] using haset _

theorem keysOk_disable (st : ManagerState) (n : String)
    (h : keysOk st) : keysOk (disable_plugin st n).2 := by
  unfold disable_plugin
  cases hl : alookup st.plugins n with
  | none => simpa using h
  | some p =>
    have hmem : n ∈ st.plugins.map Prod.fst := mem_of_alookup_eq_some hl
    have haset : ∀ q : PluginInstance,
        keysOk { st with plugins := aset st.plugins n q } := by
      intro q
      exact ⟨by rw [map_fst_aset_of_mem st.plugins n q hmem]; exact h.1,
             by rw [map_fst_aset_of_mem st.plugins n q hmem]; exact h.2⟩
    cases hen : p.is_enabled with
    | false => simpa [hen] using h
    | true =>
      cases hd : p.behavior.on_disable true with
      | exn e => simpa [hen, hd] using haset _
      | ok r e => simpa [hen, hd] using haset _

theorem keysOk_update_config (st : ManagerState) (n : String)
    (patch : ConfigMap) (h : keysOk st) :
    keysOk (update_plugin_config st n patch).2 := by
  unfold update_plugin_config
  cases hl : alookup st.plugins n with
  | none => simpa using h
  | some p =>
    have hmem : n ∈ st.plugins.map Prod.fst := mem_of_alookup_eq_some hl
    exact ⟨by rw [map_fst_aset_of_mem st.plugins n _ hmem]; exact h.1,
           by rw [map_fst_aset_of_mem st.plugins n _ hmem]; exact h.2⟩

theorem keysOk_reload (env : Disk) (st : ManagerState) (n : String)
    (h : keysOk st) : keysOk (reload_plugin env st n).2 := by
  unfold reload_plugin
  cases hl : alookup st.plugins n with
  | none => simpa using h
  | some p =>
    simp only []
    have h₁ := keysOk_unload st n h
    have h₂ := keysOk_load env (unload_plugin st n).2 n h₁
    by_cases hc : (load_plugin env (unload_plugin st n).2 n).1 && p.is_enabled
    · simpa [hc] using keysOk_enable _ n h₂
    · simpa [hc] using h₂

theorem keysOk_applyOp (env : Disk) (st : ManagerState) (op : Op)
    (h : keysOk st) : keysOk (applyOp env st op) := by
  cases op with
  | load n => exact keysOk_load env st n h
  | unload n => exact keysOk_unload st n h
  | enable n => exact keysOk_enable st n h
  | disable n => exact keysOk_disable st n h
  | reload n => exact keysOk_reload env st n h
  | updateConfig n patch => exact keysOk_update_config st n patch h

theorem keysOk_applyOps (env : Disk) (ops : List Op) :
    keysOk (applyOps env ops) := by
  suffices h : ∀ st, keysOk st → keysOk (ops.foldl (applyOp env) st) by
    exact h initState keysOk_initState
  induction ops with
  | nil => exact fun st h => h
  | cons op rest ih =>
      intro st h
      exact ih _ (keysOk_applyOp env st op h)

theorem unload_plugin_clean_eq (st : ManagerState) (name : String)
    (p : PluginInstance) (hp : alookup st.plugins name = some p)
    (hclean : unload_teardown_raises p = false) :
    unload_plugin st name =
      (true, ⟨aremove st.plugins name, aremove st.plugin_classes name⟩) := by
  unfold unload_plugin
  rw [hp]
  cases hen : p.is_enabled with
  | true =>
    cases hd : p.behavior.on_disable true with
    | exn e => simp [unload_teardown_raises, hen, hd] at hclean
    | ok r e =>
      cases hu : p.behavior.on_unload e with
      | exn e₂ =>
          simp [unload_teardown_raises, hen, hd, hu, HookRes.raised] at hclean
      | ok r₂ e₂ => simp [hen, hd, hu]
  | false =>
    cases hu : p.behavior.on_unload false with
    | exn e₂ =>
        simp [unload_teardown_raises, hen, hu, HookRes.raised] at hclean
    | ok r₂ e₂ => simp [hen, hu]

theorem unload_plugin_raised_eq (st : ManagerState) (name : String)
    (p : PluginInstance) (hp : alookup st.plugins name = some p)
    (hraise : unload_teardown_raises p = true) :
    (unload_plugin st name).1 = false ∧
    ∃ e, (unload_plugin st name).2 =
      { st with plugins := aset st.plugins name { p with is_enabled := e } } := by
  unfold unload_plugin
  rw [hp]
  cases hen : p.is_enabled with
  | true =>
    cases hd : p.behavior.on_disable true with
    | exn e => exact ⟨by simp [hen, hd], ⟨e, by simp [hen, hd]⟩⟩
    | ok r e =>
      cases hu : p.behavior.on_unload e with
      | exn e₂ => exact ⟨by simp [hen, hd, hu], ⟨e₂, by simp [hen, hd, hu]⟩⟩
      | ok r₂ e₂ =>
          simp [unload_teardown_raises, hen, hd, hu, HookRes.raised] at hraise
  | false =>
    cases hu : p.behavior.on_unload false with
    | exn e₂ => exact ⟨by simp [hen, hu], ⟨e₂, by simp [hen, hu]⟩⟩
    | ok r₂ e₂ =>
        simp [unload_teardown_raises, hen, hu, HookRes.raised] at hraise

theorem load_plugin_fail_eq (env : Disk) (st : ManagerState) (n : String)
    (hl : alookup st.plugins n = none)
    (hfail : fresh_load_ok env n = false) :
    load_plugin env st n = (false, st) := by
  unfold load_plugin
  rw [hl]
  unfold fresh_load_ok at hfail
  cases hm : (env n).metadata with
  | none => rfl
  | some meta =>
    rw [hm] at hfail
    cases hmain : (env n).mainExists with
    | false => simp
    | true =>
      rw [hmain] at hfail
      simp only [Bool.true_and] at hfail
      cases ho : (env n).outcome with
      | execRaises => simp [hmain]
      | noClass => simp [hmain]
      | found cid beh cr =>
        rw [ho] at hfail
        cases cr with
        | true => simp [hmain]
        | false =>
          simp only [Bool.not_false, Bool.true_and] at hfail
          cases hload : beh.on_load false with
          | exn e => simp [hmain, hload]
          | ok r e => rw [hload] at hfail; simp [HookRes.raised] at hfail

/-! ### Claim theorems -/

theorem discover_foldl_filter (items : List DirEntry) (acc : List String) :
    items.foldl
      (fun a it =>
        if it.isDir && !(strStartsWith it.name "__") && it.hasConfig then
          a ++ [it.name]
        else a) acc =
    acc ++ (items.filter
      (fun it => it.isDir && !(strStartsWith it.name "__") && it.hasConfig)).map
      DirEntry.name := by
  induction items generalizing acc with
  | nil => simp
  | cons hd tl ih =>
      rw [List.foldl_cons, List.filter_cons]
      by_cases hp : (hd.isDir && !(strStartsWith hd.name "__") && hd.hasConfig) = true
      · rw [if_pos hp, if_pos hp, ih]
        simp
      · rw [if_neg hp, if_neg hp, ih]

/-- C7: `discover_plugins` returns exactly the names of the directory
entries that are directories, do not start with the reserved prefix
`__`, and contain a `config.json` — in listing order — and a failed
listing yields the empty result instead of an exception. -/
theorem discover_plugins_exact :
    discover_plugins none = [] ∧
    ∀ items : List DirEntry,
      discover_plugins (some items) =
        (items.filter
          (fun it => it.isDir && !(strStartsWith it.name "__") && it.hasConfig)).map
          DirEntry.name := by
  refine ⟨rfl, fun items => ?_⟩
  unfold discover_plugins
  simpa using discover_foldl_filter items []

/-- C9: a `load_plugin` call for an identifier that already has a
PluginRecord returns False and leaves the state exactly as it was; and
starting from a fresh manager, no sequence of lifecycle operations ever
produces two records for the same identifier (the `plugins` dict keys
stay duplicate-free). -/
theorem load_rejects_already_loaded (env : Disk) (st : ManagerState)
    (name : String) (p : PluginInstance)
    (hp : alookup st.plugins name = some p) :
    load_plugin env st name = (false, st) ∧
    ∀ ops : List Op, ((applyOps env ops).plugins.map Prod.fst).Nodup := by
  constructor
  · unfold load_plugin
    rw [hp]
  · intro ops
    exact (keysOk_applyOps env ops).1

/-- Witness for C9 at a concrete loaded manager and a concrete
operation sequence. -/
theorem load_rejects_already_loaded_witness :
    alookup stBase.plugins "echo" = some pBase ∧
    (load_plugin envBase stBase "echo" = (false, stBase) ∧
     ∀ ops : List Op, ((applyOps envBase ops).plugins.map Prod.fst).Nodup) :=
  ⟨rfl, load_rejects_already_loaded envBase stBase "echo" pBase rfl⟩

/-- C10: after any sequence of lifecycle operations from a fresh
manager, `plugins` and `plugin_classes` hold exactly the same keys: the
key lists coincide, so an identifier is present in one dict exactly when
it is present in the other. -/
theorem plugin_maps_same_keys (env : Disk) (ops : List Op) (name : String) :
    (applyOps env ops).plugins.map Prod.fst =
      (applyOps env ops).plugin_classes.map Prod.fst ∧
    ((alookup (applyOps env ops).plugins name).isSome = true ↔
      (alookup (applyOps env ops).plugin_classes name).isSome = true) := by
  have h := keysOk_applyOps env ops
  refine ⟨h.2, ?_⟩
  rw [alookup_isSome_iff_mem, alookup_isSome_iff_mem, h.2]

/-- C8: on a loaded plugin, `update_plugin_config` merges the patch into
the record's mutable config — every key in the patch now has the patch
value, every other key keeps its previous value, and the record's
metadata, enablement, the other plugins and the class dict are all
untouched; on an identifier with no record it returns False and the
whole state is unchanged. -/
theorem update_plugin_config_merges (st : ManagerState) (name : String)
    (patch : ConfigMap) :
    (∀ p, alookup st.plugins name = some p →
      (patch.map Prod.fst).Nodup →
      (update_plugin_config st name patch).1 = true ∧
      alookup (update_plugin_config st name patch).2.plugins name =
        some { p with config := dictUpdate p.config patch } ∧
      (∀ key, alookup (dictUpdate p.config patch) key =
        (alookup patch key).elim (alookup p.config key) some) ∧
      (∀ other, other ≠ name →
        alookup (update_plugin_config st name patch).2.plugins other =
          alookup st.plugins other) ∧
      (update_plugin_config st name patch).2.plugin_classes =
        st.plugin_classes) ∧
    (alookup st.plugins name = none →
      update_plugin_config st name patch = (false, st)) := by
  constructor
  · intro p hp hnd
    have heq : update_plugin_config st name patch =
        (true, ManagerState.mk
          (aset st.plugins name { p with config := dictUpdate p.config patch })
          st.plugin_classes) := by
      unfold update_plugin_config
      rw [hp]
    rw [heq]
    refine ⟨rfl, alookup_aset_self _ _ _,
      fun key => alookup_dictUpdate p.config patch key hnd,
      fun other hne => alookup_aset_other _ _ _ _ hne, rfl⟩
  · intro hn
    unfold update_plugin_config
    rw [hn]

/-- Witness for C8: a concrete loaded plugin whose config merge is
evaluated, plus a concrete unknown identifier that is rejected. -/
theorem update_plugin_config_merges_witness :
    (alookup stBase.plugins "echo" = some pBase ∧
     (([("a", 5)] : ConfigMap).map Prod.fst).Nodup ∧
     ((update_plugin_config stBase "echo" [("a", 5)]).1 = true ∧
      alookup (update_plugin_config stBase "echo" [("a", 5)]).2.plugins "echo" =
        some { pBase with config := dictUpdate pBase.config [("a", 5)] } ∧
      (∀ key, alookup (dictUpdate pBase.config [("a", 5)]) key =
        (alookup ([("a", 5)] : ConfigMap) key).elim (alookup pBase.config key) some) ∧
      (∀ other, other ≠ "echo" →
        alookup (update_plugin_config stBase "echo" [("a", 5)]).2.plugins other =
          alookup stBase.plugins other) ∧
      (update_plugin_config stBase "echo" [("a", 5)]).2.plugin_classes =
        stBase.plugin_classes)) ∧
    (alookup stBase.plugins "ghost" = none ∧
     update_plugin_config stBase "ghost" [("a", 5)] = (false, stBase)) :=
  ⟨⟨rfl, by decide,
    (update_plugin_config_merges stBase "echo" [("a", 5)]).1 pBase rfl (by decide)⟩,
   ⟨rfl, (update_plugin_config_merges stBase "ghost" [("a", 5)]).2 rfl⟩⟩

/-- C1 counterexample: a plugin whose `on_load` returns False (without
raising) is nevertheless loaded — `load_plugin` returns True, a record
is created, and `get_plugin_status` reports it as loaded. -/
theorem load_accepts_on_load_false :
    (load_plugin envLoadFalse initState "echo").1 = true ∧
    (alookup (load_plugin envLoadFalse initState "echo").2.plugins "echo").isSome
      = true ∧
    (get_plugin_status envLoadFalse
      (load_plugin envLoadFalse initState "echo").2 "echo").status = "loaded" :=
  ⟨rfl, rfl, rfl⟩

/-- C1 (amended): `load_plugin` ignores the Boolean returned by
`on_load`; the load fails — no record is created and `get_plugin_status`
keeps reporting not loaded — exactly when `on_load` raises, while a
False-returning `on_load` still yields a successful load reported as
loaded. -/
theorem load_fails_only_when_on_load_raises (env : Disk) (st : ManagerState)
    (name : String) (meta : PluginMeta) (cid : Nat) (beh : PluginBehavior)
    (hl : alookup st.plugins name = none)
    (hm : (env name).metadata = some meta)
    (hmain : (env name).mainExists = true)
    (ho : (env name).outcome = .found cid beh false) :
    (∀ e, beh.on_load false = .exn e →
      load_plugin env st name = (false, st) ∧
      (get_plugin_status env st name).status = "not_loaded") ∧
    (∀ r e, beh.on_load false = .ok r e →
      (load_plugin env st name).1 = true ∧
      (get_plugin_status env (load_plugin env st name).2 name).status
        = "loaded") := by
  constructor
  · intro e he
    constructor
    · unfold load_plugin
      rw [hl]
      simp [hm, hmain, ho, he]
    · unfold get_plugin_status
      rw [hl]
  · intro r e hre
    have heq := load_plugin_success_eq env st name meta cid beh r e hl hm hmain ho hre
    rw [heq]
    refine ⟨rfl, ?_⟩
    unfold get_plugin_status
    have hlook : alookup
        (st.plugins ++ [(name, ⟨beh, meta.dict, meta.config, e⟩)]) name =
        some ⟨beh, meta.dict, meta.config, e⟩ := by
      rw [alookup_append, hl]
      simp [alookup]
    rw [hlook]

/-- Witness for the amended C1: both hook outcomes at concrete disks. -/
theorem load_fails_only_when_on_load_raises_witness :
    (alookup initState.plugins "echo" = none ∧
     (envLoadRaises "echo").metadata = some metaEcho ∧
     (envLoadRaises "echo").mainExists = true ∧
     (envLoadRaises "echo").outcome = .found 0 behLoadRaises false ∧
     behLoadRaises.on_load false = .exn false ∧
     (load_plugin envLoadRaises initState "echo" = (false, initState) ∧
      (get_plugin_status envLoadRaises initState "echo").status = "not_loaded")) ∧
    (alookup initState.plugins "echo" = none ∧
     (envLoadFalse "echo").metadata = some metaEcho ∧
     (envLoadFalse "echo").mainExists = true ∧
     (envLoadFalse "echo").outcome = .found 0 behLoadFalse false ∧
     behLoadFalse.on_load false = .ok false false ∧
     ((load_plugin envLoadFalse initState "echo").1 = true ∧
      (get_plugin_status envLoadFalse
        (load_plugin envLoadFalse initState "echo").2 "echo").status = "loaded")) :=
  ⟨⟨rfl, rfl, rfl, rfl, rfl,
    (load_fails_only_when_on_load_raises envLoadRaises initState "echo"
      metaEcho 0 behLoadRaises rfl rfl rfl rfl).1 false rfl⟩,
   ⟨rfl, rfl, rfl, rfl, rfl,
    (load_fails_only_when_on_load_raises envLoadFalse initState "echo"
      metaEcho 0 behLoadFalse rfl rfl rfl rfl).2 false false rfl⟩⟩

/-- C2 counterexample: when `on_unload` raises, `unload_plugin` catches
the exception but the deletions are skipped — the call fails and the
PluginRecord is still in the registry afterwards. -/
theorem unload_keeps_record_when_hook_raises :
    (unload_plugin stUnloadRaises "echo").1 = false ∧
    (alookup (unload_plugin stUnloadRaises "echo").2.plugins "echo").isSome
      = true :=
  ⟨rfl, rfl⟩

/-- C2 (amended): `unload_plugin` discards the PluginRecord exactly when
the teardown hooks (`on_disable` if enabled, then `on_unload`) complete
without raising — their Boolean results are ignored; if a teardown hook
raises, the exception is caught and unload returns failure, but the
record remains in the registry. -/
theorem unload_discards_iff_teardown_does_not_raise (st : ManagerState)
    (name : String) (p : PluginInstance)
    (hp : alookup st.plugins name = some p)
    (hnd : (st.plugins.map Prod.fst).Nodup) :
    (unload_teardown_raises p = false →
      (unload_plugin st name).1 = true ∧
      alookup (unload_plugin st name).2.plugins name = none) ∧
    (unload_teardown_raises p = true →
      (unload_plugin st name).1 = false ∧
      (alookup (unload_plugin st name).2.plugins name).isSome = true) := by
  constructor
  · intro hclean
    rw [unload_plugin_clean_eq st name p hp hclean]
    exact ⟨rfl, alookup_aremove_self st.plugins name hnd⟩
  · intro hraise
    obtain ⟨h1, e, h2⟩ := unload_plugin_raised_eq st name p hp hraise
    refine ⟨h1, ?_⟩
    rw [h2]
    show (alookup (aset st.plugins name { p with is_enabled := e }) name).isSome
      = true
    rw [alookup_aset_self]
    rfl

/-- Witness for the amended C2: a clean default plugin is discarded, a
raising one is retained. -/
theorem unload_discards_iff_teardown_does_not_raise_witness :
    (alookup stBase.plugins "echo" = some pBase ∧
     (stBase.plugins.map Prod.fst).Nodup ∧
     unload_teardown_raises pBase = false ∧
     ((unload_plugin stBase "echo").1 = true ∧
      alookup (unload_plugin stBase "echo").2.plugins "echo" = none)) ∧
    (alookup stUnloadRaises.plugins "echo" = some pUnloadRaises ∧
     (stUnloadRaises.plugins.map Prod.fst).Nodup ∧
     unload_teardown_raises pUnloadRaises = true ∧
     ((unload_plugin stUnloadRaises "echo").1 = false ∧
      (alookup (unload_plugin stUnloadRaises "echo").2.plugins "echo").isSome
        = true)) :=
  ⟨⟨rfl, by decide, rfl,
    (unload_discards_iff_teardown_does_not_raise stBase "echo" pBase rfl
      (by decide)).1 rfl⟩,
   ⟨rfl, by decide, rfl,
    (unload_discards_iff_teardown_does_not_raise stUnloadRaises "echo"
      pUnloadRaises rfl (by decide)).2 rfl⟩⟩

/-- C3 counterexample: a plugin whose `on_enable` returns False without
setting `is_enabled` is reported successfully enabled — `enable_plugin`
returns True while the stored record still has `is_enabled = false`. -/
theorem enable_reports_success_on_false_hook :
    (enable_plugin stEnableFalse "echo").1 = true ∧
    (alookup (enable_plugin stEnableFalse "echo").2.plugins "echo").map
      PluginInstance.is_enabled = some false :=
  ⟨rfl, rfl⟩

/-- C3 (amended): on a plugin in Loaded state, `enable_plugin` invokes
`on_enable` and succeeds exactly when the hook does not raise, ignoring
the hook's Boolean result; the manager never writes `is_enabled` itself —
the flag afterwards is whatever the hook left, so with the inherited
default `on_enable` (which sets it) the plugin does end up Enabled. -/
theorem enable_ignores_hook_result (st : ManagerState) (name : String)
    (p : PluginInstance) (hp : alookup st.plugins name = some p)
    (hen : p.is_enabled = false) :
    (enable_plugin st name).1 = !(p.behavior.on_enable false).raised ∧
    alookup (enable_plugin st name).2.plugins name =
      some { p with is_enabled := (p.behavior.on_enable false).after } ∧
    (p.behavior.on_enable = base_on_enable →
      (enable_plugin st name).1 = true ∧
      alookup (enable_plugin st name).2.plugins name =
        some { p with is_enabled := true }) := by
  unfold enable_plugin
  rw [hp]
  cases he : p.behavior.on_enable false with
  | exn e =>
    refine ⟨?_, ?_, ?_⟩
    · simp [hen, he, HookRes.raised]
    · simp [hen, he, HookRes.after, alookup_aset_self]
    · intro hbase
      exact ⟨by simp [hen, hbase, base_on_enable],
             by simp [hen, hbase, base_on_enable, alookup_aset_self]⟩
  | ok r e =>
    refine ⟨?_, ?_, ?_⟩
    · simp [hen, he, HookRes.raised]
    · simp [hen, he, HookRes.after, alookup_aset_self]
    · intro hbase
      exact ⟨by simp [hen, hbase, base_on_enable],
             by simp [hen, hbase, base_on_enable, alookup_aset_self]⟩

/-- Witness for the amended C3: the False-returning hook and the default
hook, both at concrete managers. -/
theorem enable_ignores_hook_result_witness :
    (alookup stEnableFalse.plugins "echo" = some pEnableFalse ∧
     pEnableFalse.is_enabled = false ∧
     ((enable_plugin stEnableFalse "echo").1 =
        !(pEnableFalse.behavior.on_enable false).raised ∧
      alookup (enable_plugin stEnableFalse "echo").2.plugins "echo" =
        some { pEnableFalse with
          is_enabled := (pEnableFalse.behavior.on_enable false).after } ∧
      (pEnableFalse.behavior.on_enable = base_on_enable →
        (enable_plugin stEnableFalse "echo").1 = true ∧
        alookup (enable_plugin stEnableFalse "echo").2.plugins "echo" =
          some { pEnableFalse with is_enabled := true }))) ∧
    (alookup stBase.plugins "echo" = some pBase ∧
     pBase.is_enabled = false ∧
     ((enable_plugin stBase "echo").1 =
        !(pBase.behavior.on_enable false).raised ∧
      alookup (enable_plugin stBase "echo").2.plugins "echo" =
        some { pBase with
          is_enabled := (pBase.behavior.on_enable false).after } ∧
      (pBase.behavior.on_enable = base_on_enable →
        (enable_plugin stBase "echo").1 = true ∧
        alookup (enable_plugin stBase "echo").2.plugins "echo" =
          some { pBase with is_enabled := true }))) :=
  ⟨⟨rfl, rfl, enable_ignores_hook_result stEnableFalse "echo" pEnableFalse rfl rfl⟩,
   ⟨rfl, rfl, enable_ignores_hook_result stBase "echo" pBase rfl rfl⟩⟩

/-- C4 counterexample: an enabled plugin whose `on_disable` raises makes
`reload_plugin` fail its load step (the record was never removed, so
load reports AlreadyLoaded) — yet the plugin does not end Unloaded: its
record is still in the registry. -/
theorem reload_failed_load_not_unloaded :
    (reload_plugin envBase stDisableRaises "echo").1 = false ∧
    (alookup (reload_plugin envBase stDisableRaises "echo").2.plugins "echo").isSome
      = true :=
  ⟨rfl, rfl⟩

/-- C4 (amended): for a plugin whose teardown hooks do not raise,
`reload_plugin` behaves as the claim says — a failing load step leaves
the plugin Unloaded (no record), and a plugin that was Enabled before a
successful load step (with the inherited default `on_enable` on the new
instance) is Enabled after.  When a teardown hook raises, the old
record survives and the load step fails, so the plugin stays in its old
record instead of Unloaded. -/
theorem reload_preserves_enablement_clean_teardown (env : Disk)
    (st : ManagerState) (name : String) (p : PluginInstance)
    (hp : alookup st.plugins name = some p)
    (hnd : (st.plugins.map Prod.fst).Nodup)
    (hclean : unload_teardown_raises p = false) :
    (fresh_load_ok env name = false →
      (reload_plugin env st name).1 = false ∧
      alookup (reload_plugin env st name).2.plugins name = none) ∧
    (∀ meta cid beh r e,
      (env name).metadata = some meta →
      (env name).mainExists = true →
      (env name).outcome = .found cid beh false →
      beh.on_load false = .ok r e →
      beh.on_enable = base_on_enable →
      p.is_enabled = true →
      (reload_plugin env st name).1 = true ∧
      (alookup (reload_plugin env st name).2.plugins name).map
        PluginInstance.is_enabled = some true) := by
  have hu := unload_plugin_clean_eq st name p hp hclean
  have hrm : alookup (aremove st.plugins name) name = none :=
    alookup_aremove_self st.plugins name hnd
  constructor
  · intro hfail
    have hload := load_plugin_fail_eq env
      (ManagerState.mk (aremove st.plugins name) (aremove st.plugin_classes name))
      name hrm hfail
    have hres : reload_plugin env st name =
        (false, ManagerState.mk (aremove st.plugins name)
          (aremove st.plugin_classes name)) := by
      unfold reload_plugin
      rw [hp]
      simp [hu, hload]
    rw [hres]
    exact ⟨rfl, hrm⟩
  · intro meta cid beh r e hm hmain ho hload hbase hpen
    have hloadeq := load_plugin_success_eq env
      (ManagerState.mk (aremove st.plugins name) (aremove st.plugin_classes name))
      name meta cid beh r e hrm hm hmain ho hload
    have hlook : alookup
        (aremove st.plugins name ++ [(name, ⟨beh, meta.dict, meta.config, e⟩)])
        name = some ⟨beh, meta.dict, meta.config, e⟩ := by
      rw [alookup_append, hrm]
      simp [alookup]
    cases e with
    | true =>
      have hen : enable_plugin
          (ManagerState.mk
            (aremove st.plugins name ++ [(name, ⟨beh, meta.dict, meta.config, true⟩)])
            (aremove st.plugin_classes name ++ [(name, cid)])) name =
          (false, ManagerState.mk
            (aremove st.plugins name ++ [(name, ⟨beh, meta.dict, meta.config, true⟩)])
            (aremove st.plugin_classes name ++ [(name, cid)])) := by
        unfold enable_plugin
        rw [hlook]
        simp
      have hres : reload_plugin env st name =
          (true, ManagerState.mk
            (aremove st.plugins name ++ [(name, ⟨beh, meta.dict, meta.config, true⟩)])
            (aremove st.plugin_classes name ++ [(name, cid)])) := by
        unfold reload_plugin
        rw [hp]
        simp [hu, hloadeq, hpen, hen]
      rw [hres]
      refine ⟨rfl, ?_⟩
      show (alookup
        (aremove st.plugins name ++ [(name, ⟨beh, meta.dict, meta.config, true⟩)])
        name).map PluginInstance.is_enabled = some true
      rw [hlook]
      rfl
    | false =>
      have hen : enable_plugin
          (ManagerState.mk
            (aremove st.plugins name ++ [(name, ⟨beh, meta.dict, meta.config, false⟩)])
            (aremove st.plugin_classes name ++ [(name, cid)])) name =
          (true, ManagerState.mk
            (aset
              (aremove st.plugins name ++ [(name, ⟨beh, meta.dict, meta.config, false⟩)])
              name ⟨beh, meta.dict, meta.config, true⟩)
            (aremove st.plugin_classes name ++ [(name, cid)])) := by
        unfold enable_plugin
        rw [hlook]
        simp [hbase, base_on_enable]
      have hres : reload_plugin env st name =
          (true, ManagerState.mk
            (aset
              (aremove st.plugins name ++ [(name, ⟨beh, meta.dict, meta.config, false⟩)])
              name ⟨beh, meta.dict, meta.config, true⟩)
            (aremove st.plugin_classes name ++ [(name, cid)])) := by
        unfold reload_plugin
        rw [hp]
        simp [hu, hloadeq, hpen, hen]
      rw [hres]
      refine ⟨rfl, ?_⟩
      show (alookup
        (aset
          (aremove st.plugins name ++ [(name, ⟨beh, meta.dict, meta.config, false⟩)])
          name ⟨beh, meta.dict, meta.config, true⟩)
        name).map PluginInstance.is_enabled = some true
      rw [alookup_aset_self]
      rfl

/-- Witness for the amended C4: a failing load at an unreadable disk and
a successful reload of an enabled default plugin, both evaluated. -/
theorem reload_preserves_enablement_clean_teardown_witness :
    (alookup stBase.plugins "echo" = some pBase ∧
     (stBase.plugins.map Prod.fst).Nodup ∧
     unload_teardown_raises pBase = false ∧
     fresh_load_ok envNoMeta "echo" = false ∧
     ((reload_plugin envNoMeta stBase "echo").1 = false ∧
      alookup (reload_plugin envNoMeta stBase "echo").2.plugins "echo" = none)) ∧
    (alookup stEnabledBase.plugins "echo" = some pEnabledBase ∧
     (stEnabledBase.plugins.map Prod.fst).Nodup ∧
     unload_teardown_raises pEnabledBase = false ∧
     (envBase "echo").metadata = some metaEcho ∧
     (envBase "echo").mainExists = true ∧
     (envBase "echo").outcome = .found 0 baseBehavior false ∧
     baseBehavior.on_load false = .ok true false ∧
     baseBehavior.on_enable = base_on_enable ∧
     pEnabledBase.is_enabled = true ∧
     ((reload_plugin envBase stEnabledBase "echo").1 = true ∧
      (alookup (reload_plugin envBase stEnabledBase "echo").2.plugins "echo").map
        PluginInstance.is_enabled = some true)) :=
  ⟨⟨rfl, by decide, rfl, rfl,
    (reload_preserves_enablement_clean_teardown envNoMeta stBase "echo" pBase
      rfl (by decide) rfl).1 rfl⟩,
   ⟨rfl, by decide, rfl, rfl, rfl, rfl, rfl, rfl, rfl,
    (reload_preserves_enablement_clean_teardown envBase stEnabledBase "echo"
      pEnabledBase rfl (by decide) rfl).2 metaEcho 0 baseBehavior true false
      rfl rfl rfl rfl rfl rfl⟩⟩

/-- C5 counterexample: on a modification of a loaded plugin's
`config.json`, the registry's file handler schedules a full
`reload_plugin` — not the config-update hook. -/
theorem registry_config_event_is_full_reload :
    (ConfigFileHandler_on_modified ⟨[]⟩
      ⟨false, ["plugins", "echo"], "config.json"⟩ 0).1 =
      WatchAction.reloadPlugin "echo" ∧
    WatchAction.reloadPlugin "echo" ≠ WatchAction.configHook "echo" :=
  ⟨rfl, by decide⟩

/-- C5 (amended): the registry's `ConfigFileHandler` reacts to a
config-file modification with a full `reload_plugin` of the owning
plugin; the re-read-config-and-invoke-hook reaction exists only in the
per-plugin `PluginFileHandler` of plugin_base, which maps `config.json`
modifications to the `on_config_changed` hook. -/
theorem config_event_full_reload_vs_plugin_hook (hs : HandlerState)
    (e : FsEvent) (name : String) (t : ℚ)
    (hdir : e.is_directory = false)
    (hfn : e.filename = "config.json")
    (hlast : e.dir.getLast? = some name)
    (hfresh : alookup hs.last_reload name = none) :
    (ConfigFileHandler_on_modified hs e t).1 = .reloadPlugin name ∧
    (should_ignore (e.dir ++ [e.filename]) = false →
      PluginFileHandler_on_modified true e name = .configHook name) := by
  have hends : strEndsWith "config.json" "config.json" = true := by decide
  constructor
  · simp [ConfigFileHandler_on_modified, hdir, hfn, hends, hlast, hfresh]
  · intro hig
    rw [hfn] at hig
    simp [PluginFileHandler_on_modified, hig, hfn]

/-- Witness for the amended C5 at a concrete event. -/
theorem config_event_full_reload_vs_plugin_hook_witness :
    ((⟨false, ["plugins", "echo"], "config.json"⟩ : FsEvent).is_directory
      = false ∧
     (⟨false, ["plugins", "echo"], "config.json"⟩ : FsEvent).filename
      = "config.json" ∧
     (⟨false, ["plugins", "echo"], "config.json"⟩ : FsEvent).dir.getLast?
      = some "echo" ∧
     alookup (⟨[]⟩ : HandlerState).last_reload "echo" = none) ∧
    ((ConfigFileHandler_on_modified ⟨[]⟩
        ⟨false, ["plugins", "echo"], "config.json"⟩ 0).1 =
      .reloadPlugin "echo" ∧
     (should_ignore (["plugins", "echo"] ++ ["config.json"]) = false →
      PluginFileHandler_on_modified true
        ⟨false, ["plugins", "echo"], "config.json"⟩ "echo" =
        .configHook "echo")) :=
  ⟨⟨rfl, rfl, rfl, rfl⟩,
   config_event_full_reload_vs_plugin_hook ⟨[]⟩
     ⟨false, ["plugins", "echo"], "config.json"⟩ "echo" 0 rfl rfl rfl rfl⟩

/-- C6: two modification events for the same plugin's config file whose
timestamps lie within the 1-second debounce window produce exactly one
reaction — the first schedules a reload, the second is suppressed and
leaves the handler state untouched. -/
theorem config_debounce_one_reaction (hs : HandlerState) (name : String)
    (dir : List String) (t₁ t₂ : ℚ)
    (hlast : dir.getLast? = some name)
    (hfresh : alookup hs.last_reload name = none)
    (hwin : t₂ - t₁ < 1) :
    (ConfigFileHandler_on_modified hs ⟨false, dir, "config.json"⟩ t₁).1 =
      .reloadPlugin name ∧
    ConfigFileHandler_on_modified
        (ConfigFileHandler_on_modified hs ⟨false, dir, "config.json"⟩ t₁).2
        ⟨false, dir, "config.json"⟩ t₂ =
      (.skip,
       (ConfigFileHandler_on_modified hs ⟨false, dir, "config.json"⟩ t₁).2) := by
  have hends : strEndsWith "config.json" "config.json" = true := by decide
  have h1 : ConfigFileHandler_on_modified hs ⟨false, dir, "config.json"⟩ t₁ =
      (.reloadPlugin name, ⟨aset hs.last_reload name t₁⟩) := by
    simp [ConfigFileHandler_on_modified, hends, hlast, hfresh]
  rw [h1]
  refine ⟨rfl, ?_⟩
  simp [ConfigFileHandler_on_modified, hends, hlast, alookup_aset_self, hwin]

/-- Witness for C6: two events at the same instant collapse to one
reaction. -/
theorem config_debounce_one_reaction_witness :
    ((["plugins", "echo"] : List String).getLast? = some "echo" ∧
     alookup (⟨[]⟩ : HandlerState).last_reload "echo" = none ∧
     (0 : ℚ) - 0 < 1) ∧
    ((ConfigFileHandler_on_modified ⟨[]⟩
        ⟨false, ["plugins", "echo"], "config.json"⟩ 0).1 =
      .reloadPlugin "echo" ∧
     ConfigFileHandler_on_modified
        (ConfigFileHandler_on_modified ⟨[]⟩
          ⟨false, ["plugins", "echo"], "config.json"⟩ 0).2
        ⟨false, ["plugins", "echo"], "config.json"⟩ 0 =
      (.skip,
       (ConfigFileHandler_on_modified ⟨[]⟩
         ⟨false, ["plugins", "echo"], "config.json"⟩ 0).2)) :=
  ⟨⟨rfl, rfl, by simp⟩,
   config_debounce_one_reaction ⟨[]⟩ "echo" ["plugins", "echo"] 0 0
     rfl rfl (by simp)⟩
